import Mathlib

/-!
Verification of the chessLM game-orchestration core.

The chess rules engine (python-chess) is an external trusted library; it is
modelled as an abstract interface `Engine` exposing exactly the queries and
updates the repository code calls (`board.turn`, `board.fen()`,
`board.legal_moves`, `chess.Move.from_uci`, `board.push`, `board.set_fen`,
`board.parse_san`, and the terminal-status predicates).  The Tool Surface
(`src/utils/tools.py`), the Agent Invocation Bridge (`src/utils/helpers.py`)
and the autoplay loop (`src/app.py`) are embedded as executable functions
over that interface.
-/

namespace ChessLM

/-- Boolean test that `pat` occurs as a contiguous sublist of a char list
(Python's `in` operator on strings). -/
def charsContains (pat : List Char) : List Char → Bool
  | [] => pat.isEmpty
  | c :: rest => pat.isPrefixOf (c :: rest) || charsContains pat rest

/-- `strContainsSub s pat` : `pat` occurs as a substring of `s`. -/
def strContainsSub (s pat : String) : Bool :=
  charsContains pat.data s.data

/-- `strStartsWith s pat` : `s` begins with `pat`. -/
def strStartsWith (s pat : String) : Bool :=
  pat.data.isPrefixOf s.data

/-- Python's `", ".join(xs)`. -/
def commaJoin : List String → String
  | [] => ""
  | [x] => x
  | x :: y :: rest => x ++ ", " ++ commaJoin (y :: rest)

/-- Python's `str.lower()` (the repository only lowercases ASCII exception text). -/
def lowerStr (s : String) : String := s.map Char.toLower

/-- Side to move, derived from the board's turn bit (`chess.WHITE` / `chess.BLACK`). -/
inductive Side where
  | white
  | black
deriving DecidableEq

/-- The opposite side. -/
def Side.flip : Side → Side
  | .white => .black
  | .black => .white

/-- The string name the Python code produces for a side
(`"white" if board.turn == chess.WHITE else "black"`). -/
def sideName : Side → String
  | .white => "white"
  | .black => "black"

/-- Interface of the trusted chess rules engine (python-chess `chess.Board` and
`chess.Move`), restricted to the operations the repository calls.  `σ` is the
board state, `μ` the move type.  Fallible library calls are `Except`-valued,
the error string standing for the raised exception's text. -/
structure Engine (σ : Type) (μ : Type) where
  turn : σ → Side
  fen : σ → String
  legalMoves : σ → List μ
  uciOf : μ → String
  fromUci : String → Except String μ
  push : σ → μ → σ
  setFen : σ → String → Except String σ
  parseSan : σ → String → Except String μ
  isCheckmate : σ → Bool
  isStalemate : σ → Bool
  isInsufficientMaterial : σ → Bool
  canClaimThreefold : σ → Bool
  canClaimFiftyMoves : σ → Bool
  gameOver : σ → Bool

/-- The rejection message of `make_move` when a side restriction is set and it
is not that side's turn (tools.py line 59). -/
def notYourTurnMsg (current : String) : String :=
  "Not your turn: it's " ++ current ++ " to move. Wait for opponent."

/-- The rejection message of `make_move` for an unparseable UCI string
(tools.py line 88). -/
def invalidUciMsg (move : String) : String :=
  "Invalid UCI format '" ++ move ++ "'. Use convert_move_to_uci tool if you have algebraic notation, or get_legal_moves to see valid UCI moves."

/-- The rejection message of `make_move` for a parseable but illegal move,
listing up to 10 legal moves (tools.py lines 83-84). -/
def illegalMoveMsg {σ μ : Type} (e : Engine σ μ) (s : σ) (move : String) : String :=
  "Illegal move '" ++ move ++ "'. Use UCI format like these legal moves: " ++
    commaJoin (((e.legalMoves s).take 10).map e.uciOf)

/-- Status classification after a move is pushed (tools.py lines 66-78):
checkmate, stalemate, insufficient material, threefold-repetition claim,
fifty-move claim, otherwise ongoing — first match wins.  The winner on
checkmate is the side opposite the (post-push) side to move. -/
def statusAfterPush {σ μ : Type} (e : Engine σ μ) (s2 : σ) : String :=
  if e.isCheckmate s2 then "checkmate:" ++ sideName (e.turn s2).flip
  else if e.isStalemate s2 then "stalemate"
  else if e.isInsufficientMaterial s2 then "draw:insufficient_material"
  else if e.canClaimThreefold s2 then "draw:threefold_repetition_claim_available"
  else if e.canClaimFiftyMoves s2 then "draw:fifty_move_rule_claim_available"
  else "ongoing"

/-- The body of `make_move` after the side-restriction check (tools.py lines
62-89): parse the UCI string, check legality, push and classify, or reject.
A parse failure whose text mentions "expected uci string" or "invalid uci"
(python-chess's `InvalidMoveError` texts) is mapped to `invalidUciMsg`; any
other exception text is returned verbatim. -/
def make_move_core {σ μ : Type} [DecidableEq μ] (e : Engine σ μ) (s : σ) (move : String) :
    σ × String :=
  match e.fromUci move with
  | .error err =>
    if strContainsSub (lowerStr err) "expected uci string" ||
        strContainsSub (lowerStr err) "invalid uci" then
      (s, invalidUciMsg move)
    else
      (s, err)
  | .ok cm =>
    if cm ∈ e.legalMoves s then
      let s2 := e.push s cm
      (s2, e.fen s2 ++ " | status=" ++ statusAfterPush e s2)
    else
      (s, illegalMoveMsg e s move)

/-- The `make_move` tool (tools.py lines 44-89).  `allowed` is the
`allowed_side` string fixed at Tool Surface construction; when set and
different from the current side to move, the move is rejected before any
parsing. -/
def make_move {σ μ : Type} [DecidableEq μ] (e : Engine σ μ) (allowed : Option String)
    (s : σ) (move : String) : σ × String :=
  match allowed with
  | none => make_move_core e s move
  | some a =>
    let current := sideName (e.turn s)
    if current ≠ a then (s, notYourTurnMsg current)
    else make_move_core e s move

/-- The `get_fen` tool (tools.py lines 19-23). -/
def get_fen {σ μ : Type} (e : Engine σ μ) (s : σ) : σ × String :=
  (s, e.fen s)

/-- The `set_fen` tool (tools.py lines 26-41): replace the board from a FEN,
returning the new canonical FEN, or return the `ValueError` text on failure. -/
def set_fen {σ μ : Type} (e : Engine σ μ) (s : σ) (fen : String) : σ × String :=
  match e.setFen s fen with
  | .ok s2 => (s2, e.fen s2)
  | .error err => (s, err)

/-- The `convert_move_to_uci` tool (tools.py lines 102-117): parse standard
algebraic notation against the current position and report the UCI form, or a
descriptive failure message. -/
def convert_move_to_uci {σ μ : Type} (e : Engine σ μ) (s : σ) (alg : String) : σ × String :=
  (s,
    match e.parseSan s alg with
    | .ok mv => "UCI format: " ++ e.uciOf mv
    | .error err => "Could not convert '" ++ alg ++ "' to UCI format. Error: " ++ err)

/-- A Python value as seen by `_get_chunk_message_content` (helpers.py lines
144-151): a message's `content` can be a string, a list, a dict, or `None`.
Only the dict's entries matter (`.get("text")` looks up the `"text"` key). -/
inductive PyVal where
  | vstr (s : String)
  | vlist (xs : List PyVal)
  | vdict (entries : List (String × PyVal))
  | vnone

/-- Python truthiness for the values `_get_chunk_message_content` can hold:
empty string, empty list, empty dict and `None` are falsy. -/
def pyTruthy : PyVal → Bool
  | .vstr s => decide (s ≠ "")
  | .vlist xs => !xs.isEmpty
  | .vdict es => !es.isEmpty
  | .vnone => false

/-- `_get_chunk_message_content` (helpers.py lines 144-151): reduce a list to
its first element (empty list becomes `""`), then a dict to its `"text"` value
(`None` when the key is absent), then `message or "Calling tool(s)"`. -/
def getChunkMessageContent (content : PyVal) : PyVal :=
  let m1 : PyVal := match content with
    | .vlist [] => .vstr ""
    | .vlist (x :: _) => x
    | v => v
  let m2 : PyVal := match m1 with
    | .vdict es =>
      (match es.lookup "text" with
       | some v => v
       | none => .vnone)
    | v => v
  if pyTruthy m2 then m2 else .vstr "Calling tool(s)"

/-- The `"text"` value of a keyed answer, `PyVal.vnone` when the key is absent
(Python `dict.get("text")`). -/
def textFieldOf (es : List (String × PyVal)) : PyVal :=
  match es.lookup "text" with
  | some v => v
  | none => .vnone

/-- Return `v` when truthy, the constant placeholder otherwise
(Python `v or "Calling tool(s)"`). -/
def fallbackIfFalsy (v : PyVal) : PyVal :=
  if pyTruthy v then v else .vstr "Calling tool(s)"

/-- Modelled from the spec: the amended content-extraction rule, stated as a
flat case table.  A non-empty sequence is reduced to its first element; a
keyed answer (at top level or as that first element) is reduced to its
labelled `"text"` value (absent key gives `None`); the reduced value is
returned if truthy and otherwise falls back to the placeholder
`"Calling tool(s)"`; an empty sequence falls back to the placeholder. -/
def specExtractContent : PyVal → PyVal
  | .vlist [] => .vstr "Calling tool(s)"
  | .vlist (.vdict es :: _) => fallbackIfFalsy (textFieldOf es)
  | .vlist (x :: _) => fallbackIfFalsy x
  | .vdict es => fallbackIfFalsy (textFieldOf es)
  | v => fallbackIfFalsy v

/-- A transcript entry (`gr.ChatMessage`): role, content, and the optional
`metadata["title"]` tool attribution. -/
structure ChatMessage where
  role : String
  content : PyVal
  title : Option String

/-- One tool-execution record from a `"tools"` chunk
(`chunk["tools"]["messages"]` element: its `.name` and `.content`). -/
structure ToolStep where
  name : String
  content : String

/-- One streamed event from `agent.astream`: an optional `"tools"` key and an
optional `"agent"` key (holding `chunk["agent"]["messages"][0].content`). -/
structure Chunk where
  tools : Option (List ToolStep)
  agent : Option PyVal

/-- The transcript entry appended for one tool step (helpers.py lines 55-61). -/
def toolEntry (st : ToolStep) : ChatMessage :=
  ⟨"assistant", .vstr st.content, some ("🛠️ Used tool " ++ st.name)⟩

/-- The transcript entry appended when streaming fails (helpers.py line 75). -/
def errorEntry (e : String) : ChatMessage :=
  ⟨"assistant", .vstr ("Error: " ++ e), none⟩

/-- Append one entry per tool step, yielding the transcript after each
(helpers.py lines 52-62).  Returns the final transcript and the list of
yielded snapshots. -/
def processToolSteps (msgs : List ChatMessage) :
    List ToolStep → List ChatMessage × List (List ChatMessage)
  | [] => (msgs, [])
  | st :: rest =>
    let m := msgs ++ [toolEntry st]
    let (mfin, ys) := processToolSteps m rest
    (mfin, m :: ys)

/-- Process one streamed chunk (helpers.py lines 52-72): tool steps first,
then the final-answer message, yielding after each appended entry. -/
def processChunk (msgs : List ChatMessage) (c : Chunk) :
    List ChatMessage × List (List ChatMessage) :=
  let p1 := match c.tools with
    | none => (msgs, [])
    | some steps => processToolSteps msgs steps
  match c.agent with
  | none => p1
  | some content =>
    let m2 := p1.1 ++ [⟨"assistant", getChunkMessageContent content, none⟩]
    (m2, p1.2 ++ [m2])

/-- Process a whole event stream in order, collecting all yields. -/
def processChunks (msgs : List ChatMessage) : List Chunk → List ChatMessage × List (List ChatMessage)
  | [] => (msgs, [])
  | c :: rest =>
    let p1 := processChunk msgs c
    let p2 := processChunks p1.1 rest
    (p2.1, p1.2 ++ p2.2)

/-- The Agent Invocation Bridge `call_agent` (helpers.py lines 40-76) as the
sequence of transcripts it yields.  `events` are the chunks the stream
delivers before it either finishes (`exc = none`) or raises (`exc = some e`);
in the latter case one `Error: <e>` assistant entry is appended and yielded
and the sequence ends. -/
def call_agent (msgs : List ChatMessage) (events : List Chunk) (exc : Option String) :
    List (List ChatMessage) :=
  match exc with
  | none => (processChunks msgs events).2
  | some e => (processChunks msgs events).2 ++ [(processChunks msgs events).1 ++ [errorEntry e]]

/-- Ceiling check of the autoplay loop (app.py line 106):
`max_moves is not None and moves >= max_moves`. -/
def autoplayStop (maxMoves : Option Nat) (moves : Nat) : Bool :=
  match maxMoves with
  | none => false
  | some n => decide (n ≤ moves)

/-- The `_autoplay_until_human_or_gameover` loop (app.py lines 104-140),
indexed by fuel: each iteration checks game over, then the ceiling, then
whether a human is to move, and otherwise runs one agent turn (`step`,
the agent's net effect on the board) and increments `moves`.  `none` means
the given fuel was exhausted with the loop still running; `some (s, moves)`
means the loop stopped in state `s` after `moves` plies. -/
def autoplayFuel {σ : Type} (gameOver humanToMove : σ → Bool) (step : σ → σ)
    (maxMoves : Option Nat) : Nat → Nat → σ → Option (σ × Nat)
  | 0, _, _ => none
  | fuel + 1, moves, s =>
    if gameOver s then some (s, moves)
    else if autoplayStop maxMoves moves then some (s, moves)
    else if humanToMove s then some (s, moves)
    else autoplayFuel gameOver humanToMove step maxMoves fuel (moves + 1) (step s)

/-- Whether the side to move is human-controlled (app.py lines 108-113):
the provider dropdown of the side to move equals `"Human"`. -/
def humanToMove {σ μ : Type} (e : Engine σ μ) (whiteProvider blackProvider : String)
    (s : σ) : Bool :=
  decide ((match e.turn s with
           | .white => whiteProvider
           | .black => blackProvider) = "Human")

/-- The autoplay loop as `app.py` instantiates it: stop conditions from the
engine and the two provider dropdowns, one agent turn abstracted as `step`. -/
def autoplayApp {σ μ : Type} (e : Engine σ μ) (whiteProvider blackProvider : String)
    (step : σ → σ) (maxMoves : Option Nat) (fuel moves : Nat) (s : σ) : Option (σ × Nat) :=
  autoplayFuel e.gameOver (humanToMove e whiteProvider blackProvider) step maxMoves fuel moves s

/-- The move ceiling `move_entrypoint` passes to the autoplay loop (app.py
lines 156-164): no `max_moves` argument, so the default `None`. -/
def move_entrypoint_max_moves : Option Nat := none

/-- The move ceiling `start_or_reset_game` passes to the autoplay loop
(app.py lines 175 and 183-192): its `max_moves=200` default. -/
def start_or_reset_max_moves : Option Nat := some 200

/-- The `allowed_side` with which `app.py` line 47 builds the base Tool
Surface used by `chat_entrypoint`: `create_base_tools(board)` leaves the
`allowed_side` parameter at its default `None` (tools.py line 6). -/
def app_base_tools_allowed_side : Option String := none

/-- A move-triggered autoplay run that never stops: given any fuel the loop
is still running (the embedded while-loop does not terminate). -/
def autoplayNeverStops {σ μ : Type} (e : Engine σ μ)
    (whiteProvider blackProvider : String) (step : σ → σ) (maxMoves : Option Nat)
    (s : σ) : Prop :=
  ∀ fuel, autoplayApp e whiteProvider blackProvider step maxMoves fuel 0 s = none

/-- Concrete instantiation of the engine interface on a toy rules engine
(state: the list of moves played, moves: UCI strings), used to witness that
the theorems' hypotheses are satisfiable. -/
def toyFromUci (m : String) : Except String String :=
  if m.length = 4 || m.length = 5 then Except.ok m
  else Except.error ("expected uci string to be of length 4 or 5: " ++ m)

/-- Toy side to move: white on even ply counts. -/
def toyTurn (s : List String) : Side :=
  if s.length % 2 = 0 then .white else .black

/-- Toy legal moves: two moves available for the first two plies, then none. -/
def toyLegal (s : List String) : List String :=
  if s.length < 2 then ["e2e4", "d2d4"] else []

/-- The toy engine: after two plies the game is a checkmate. -/
def toy : Engine (List String) String where
  turn := toyTurn
  fen := fun _ => "toyfen"
  legalMoves := toyLegal
  uciOf := id
  fromUci := toyFromUci
  push := fun s m => s ++ [m]
  setFen := fun s f => if f = "toyfen" then Except.ok s else Except.error "invalid fen"
  parseSan := fun _ a => Except.error ("invalid san: " ++ a)
  isCheckmate := fun s => decide (2 ≤ s.length)
  isStalemate := fun _ => false
  isInsufficientMaterial := fun _ => false
  canClaimThreefold := fun _ => false
  canClaimFiftyMoves := fun _ => false
  gameOver := fun s => decide (2 ≤ s.length)

/-! ### Helper lemmas -/

theorem strData_append (a b : String) : (a ++ b).data = a.data ++ b.data := by
  cases a; cases b; rfl

theorem isPrefixOf_append_self (l suf : List Char) : l.isPrefixOf (l ++ suf) = true := by
  induction l with
  | nil => simp [List.isPrefixOf]
  | cons c cs ih => simp [List.isPrefixOf, ih]

theorem charsContains_nil_pat (l : List Char) : charsContains [] l = true := by
  induction l with
  | nil => simp [charsContains]
  | cons c cs ih => simp [charsContains, ih]

theorem charsContains_self_append (pat suf : List Char) :
    charsContains pat (pat ++ suf) = true := by
  cases pat with
  | nil => simpa using charsContains_nil_pat suf
  | cons p ps => simp [charsContains, isPrefixOf_append_self]

theorem charsContains_append_middle (pre pat suf : List Char) :
    charsContains pat (pre ++ (pat ++ suf)) = true := by
  induction pre with
  | nil => simpa using charsContains_self_append pat suf
  | cons c cs ih => simp [charsContains, ih]

theorem strContainsSub_middle (a pat suf : String) :
    strContainsSub (a ++ (pat ++ suf)) pat = true := by
  unfold strContainsSub
  rw [strData_append, strData_append]
  exact charsContains_append_middle a.data pat.data suf.data

theorem commaJoin_cons (a : String) (l : List String) :
    ∃ suf, commaJoin (a :: l) = a ++ suf := by
  cases l with
  | nil => exact ⟨"", by simp [commaJoin]⟩
  | cons b rest => exact ⟨", " ++ commaJoin (b :: rest), by simp [commaJoin, String.append_assoc]⟩

theorem Side.flip_flip (t : Side) : t.flip.flip = t := by
  cases t <;> rfl

/-! ### Claim theorems -/

/-- C1: a move string that parses as UCI and is in the current legal-move set
— with the side restriction, when set, equal to the side to move — is applied
to the Position, and `make_move` returns the post-move FEN concatenated with
the status tag (never an error string). -/
theorem make_move_legal_applies {σ μ : Type} [DecidableEq μ] (e : Engine σ μ)
    (allowed : Option String) (s : σ) (m : String) (cm : μ)
    (hp : e.fromUci m = Except.ok cm)
    (hl : cm ∈ e.legalMoves s)
    (ha : allowed = none ∨ allowed = some (sideName (e.turn s))) :
    make_move e allowed s m =
      (e.push s cm,
       e.fen (e.push s cm) ++ " | status=" ++ statusAfterPush e (e.push s cm)) := by
  have hcore : make_move_core e s m =
      (e.push s cm,
       e.fen (e.push s cm) ++ " | status=" ++ statusAfterPush e (e.push s cm)) := by
    simp [make_move_core, hp, hl]
  rcases ha with h | h <;> subst h <;> simp [make_move, hcore]

/-- C1 witness: on the toy engine, `e2e4` parses, is legal in the initial
state, and `make_move` applies it and reports the ongoing status. -/
theorem make_move_legal_applies_witness :
    toy.fromUci "e2e4" = Except.ok "e2e4" ∧ "e2e4" ∈ toy.legalMoves [] ∧
    make_move toy none [] "e2e4" = (["e2e4"], "toyfen | status=ongoing") := by
  refine ⟨rfl, by decide, ?_⟩
  rw [make_move_legal_applies toy none [] "e2e4" "e2e4" rfl (by decide) (Or.inl rfl)]
  decide

/-- C2: a move string that parses as UCI but is not in the current legal-move
set — with the side restriction, when set, equal to the side to move — leaves
the Position unchanged and yields a rejection message listing up to 10 legal
moves; whenever the position has any legal move, the message contains a valid
alternative (the first legal move) as a substring. -/
theorem make_move_illegal_rejects {σ μ : Type} [DecidableEq μ] (e : Engine σ μ)
    (allowed : Option String) (s : σ) (m : String) (cm : μ)
    (hp : e.fromUci m = Except.ok cm)
    (hl : cm ∉ e.legalMoves s)
    (ha : allowed = none ∨ allowed = some (sideName (e.turn s))) :
    make_move e allowed s m = (s, illegalMoveMsg e s m) ∧
    (∀ x rest, e.legalMoves s = x :: rest →
      strContainsSub (make_move e allowed s m).2 (e.uciOf x) = true) := by
  have hcore : make_move_core e s m = (s, illegalMoveMsg e s m) := by
    simp [make_move_core, hp, hl]
  have hmm : make_move e allowed s m = (s, illegalMoveMsg e s m) := by
    rcases ha with h | h <;> subst h <;> simp [make_move, hcore]
  refine ⟨hmm, ?_⟩
  intro x rest hx
  rw [hmm]
  show strContainsSub (illegalMoveMsg e s m) (e.uciOf x) = true
  unfold illegalMoveMsg
  rw [hx]
  rw [List.take_succ_cons, List.map_cons]
  obtain ⟨suf, hsuf⟩ := commaJoin_cons (e.uciOf x) ((rest.take 9).map e.uciOf)
  rw [hsuf]
  exact strContainsSub_middle _ (e.uciOf x) suf

/-- C2 witness: on the toy engine, `a2a3` parses but is illegal in the initial
state; the board is unchanged and the message quotes the legal moves. -/
theorem make_move_illegal_rejects_witness :
    toy.fromUci "a2a3" = Except.ok "a2a3" ∧ "a2a3" ∉ toy.legalMoves [] ∧
    make_move toy none [] "a2a3" =
      ([], "Illegal move 'a2a3'. Use UCI format like these legal moves: e2e4, d2d4") ∧
    strContainsSub (make_move toy none [] "a2a3").2 "e2e4" = true := by
  have h := make_move_illegal_rejects toy none [] "a2a3" "a2a3" rfl (by decide)
    (Or.inl rfl)
  refine ⟨rfl, by decide, ?_, ?_⟩
  · rw [h.1]; decide
  · exact h.2 "e2e4" ["d2d4"] rfl

/-- C3: when the Tool Surface carries a side restriction and the side to move
differs from it, `make_move` returns the "not your turn" message and leaves
the Position unchanged, for every move argument (legal, illegal or
malformed) — the restriction check precedes parsing. -/
theorem make_move_wrong_side_rejects {σ μ : Type} [DecidableEq μ] (e : Engine σ μ)
    (a : String) (s : σ) (m : String)
    (h : sideName (e.turn s) ≠ a) :
    make_move e (some a) s m = (s, notYourTurnMsg (sideName (e.turn s))) := by
  simp [make_move, h]

/-- C3 witness: on the toy engine restricted to black, a white-to-move state
rejects even a malformed move string, unchanged. -/
theorem make_move_wrong_side_rejects_witness :
    sideName (toy.turn []) ≠ "black" ∧
    make_move toy (some "black") [] "???" =
      ([], "Not your turn: it's white to move. Wait for opponent.") := by
  refine ⟨by decide, ?_⟩
  rw [make_move_wrong_side_rejects toy "black" [] "???" (by decide)]
  decide

theorem make_move_restriction_passes {σ μ : Type} [DecidableEq μ] (e : Engine σ μ)
    (allowed : Option String) (s : σ) (m : String)
    (ha : allowed = none ∨ allowed = some (sideName (e.turn s))) :
    make_move e allowed s m = make_move_core e s m := by
  rcases ha with h | h <;> subst h <;> simp [make_move]

theorem checkmate_tag_props (t : Side) :
    "checkmate:" ++ sideName t ≠ "stalemate" ∧
    strStartsWith ("checkmate:" ++ sideName t) "draw:" = false := by
  cases t <;> exact ⟨by decide, by decide⟩

/-- C4: after a legal move is applied, the status tag is the first match in
priority order checkmate (winner: the side that just moved), stalemate,
insufficient material, threefold claim, fifty-move claim, else ongoing; a
checkmate position is never tagged stalemate or as any draw. -/
theorem make_move_status_priority {σ μ : Type} [DecidableEq μ] (e : Engine σ μ)
    (allowed : Option String) (s : σ) (m : String) (cm : μ)
    (hp : e.fromUci m = Except.ok cm)
    (hl : cm ∈ e.legalMoves s)
    (ha : allowed = none ∨ allowed = some (sideName (e.turn s)))
    (hflip : e.turn (e.push s cm) = (e.turn s).flip) :
    (make_move e allowed s m).2 =
        e.fen (e.push s cm) ++ " | status=" ++ statusAfterPush e (e.push s cm) ∧
    (e.isCheckmate (e.push s cm) = true →
      statusAfterPush e (e.push s cm) = "checkmate:" ++ sideName (e.turn s) ∧
      statusAfterPush e (e.push s cm) ≠ "stalemate" ∧
      strStartsWith (statusAfterPush e (e.push s cm)) "draw:" = false) ∧
    (e.isCheckmate (e.push s cm) = false → e.isStalemate (e.push s cm) = true →
      statusAfterPush e (e.push s cm) = "stalemate") ∧
    (e.isCheckmate (e.push s cm) = false → e.isStalemate (e.push s cm) = false →
      e.isInsufficientMaterial (e.push s cm) = true →
      statusAfterPush e (e.push s cm) = "draw:insufficient_material") ∧
    (e.isCheckmate (e.push s cm) = false → e.isStalemate (e.push s cm) = false →
      e.isInsufficientMaterial (e.push s cm) = false →
      e.canClaimThreefold (e.push s cm) = true →
      statusAfterPush e (e.push s cm) = "draw:threefold_repetition_claim_available") ∧
    (e.isCheckmate (e.push s cm) = false → e.isStalemate (e.push s cm) = false →
      e.isInsufficientMaterial (e.push s cm) = false →
      e.canClaimThreefold (e.push s cm) = false →
      e.canClaimFiftyMoves (e.push s cm) = true →
      statusAfterPush e (e.push s cm) = "draw:fifty_move_rule_claim_available") ∧
    (e.isCheckmate (e.push s cm) = false → e.isStalemate (e.push s cm) = false →
      e.isInsufficientMaterial (e.push s cm) = false →
      e.canClaimThreefold (e.push s cm) = false →
      e.canClaimFiftyMoves (e.push s cm) = false →
      statusAfterPush e (e.push s cm) = "ongoing") := by
  refine ⟨?_, ?_, ?_, ?_, ?_, ?_, ?_⟩
  · rw [make_move_restriction_passes e allowed s m ha]
    simp [make_move_core, hp, hl]
  · intro hcm
    have hs : statusAfterPush e (e.push s cm) = "checkmate:" ++ sideName (e.turn s) := by
      rw [statusAfterPush, if_pos hcm, hflip, Side.flip_flip]
    exact ⟨hs, hs ▸ (checkmate_tag_props (e.turn s)).1, hs ▸ (checkmate_tag_props (e.turn s)).2⟩
  · intro h1 h2; simp [statusAfterPush, h1, h2]
  · intro h1 h2 h3; simp [statusAfterPush, h1, h2, h3]
  · intro h1 h2 h3 h4; simp [statusAfterPush, h1, h2, h3, h4]
  · intro h1 h2 h3 h4 h5; simp [statusAfterPush, h1, h2, h3, h4, h5]
  · intro h1 h2 h3 h4 h5; simp [statusAfterPush, h1, h2, h3, h4, h5]

/-- C4 witness: on the toy engine, black's second-ply move is legal, the
resulting state is checkmate, and the tag names black (the mover) as winner. -/
theorem make_move_status_priority_witness :
    toy.fromUci "d2d4" = Except.ok "d2d4" ∧ "d2d4" ∈ toy.legalMoves ["e2e4"] ∧
    toy.turn (toy.push ["e2e4"] "d2d4") = (toy.turn ["e2e4"]).flip ∧
    toy.isCheckmate (toy.push ["e2e4"] "d2d4") = true ∧
    statusAfterPush toy (toy.push ["e2e4"] "d2d4") = "checkmate:black" ∧
    (make_move toy none ["e2e4"] "d2d4").2 = "toyfen | status=checkmate:black" := by
  have h := make_move_status_priority toy none ["e2e4"] "d2d4" "d2d4" rfl (by decide)
    (Or.inl rfl) (by decide)
  refine ⟨rfl, by decide, by decide, by decide, ?_, ?_⟩
  · rw [(h.2.1 (by decide)).1]; decide
  · rw [h.1]; decide

theorem autoplay_some_of_ceiling {σ : Type} (go hu : σ → Bool) (step : σ → σ) (n : Nat) :
    ∀ fuel moves s, moves ≤ n → fuel = n + 1 - moves →
      (autoplayFuel go hu step (some n) fuel moves s).isSome = true := by
  intro fuel
  induction fuel with
  | zero => intro moves s hm hf; omega
  | succ f ih =>
    intro moves s hm hf
    cases hgo : go s with
    | true => simp [autoplayFuel, hgo]
    | false =>
      cases hstop : autoplayStop (some n) moves with
      | true => simp [autoplayFuel, hgo, hstop]
      | false =>
        cases hhu : hu s with
        | true => simp [autoplayFuel, hgo, hstop, hhu]
        | false =>
          have hlt : ¬ n ≤ moves := by
            simpa [autoplayStop] using hstop
          simp only [autoplayFuel, hgo, hstop, hhu, Bool.false_eq_true, if_false]
          exact ih (moves + 1) (step s) (by omega) (by omega)

/-- C5 (amended): the move ceiling is a hard stop when one is passed — the
loop halts as soon as the game is over, the ceiling is reached, or a human is
to move, and with ceiling `n` it always stops within `n + 1` iterations — but
the move-triggered entry point passes no ceiling (`max_moves` stays `None`),
while only start/reset passes 200. -/
theorem autoplay_ceiling_hard_stop :
    move_entrypoint_max_moves = none ∧
    start_or_reset_max_moves = some 200 ∧
    (∀ {σ : Type} (go hu : σ → Bool) (step : σ → σ) (mx : Option Nat) (fuel moves : Nat)
      (s : σ), go s = true → autoplayFuel go hu step mx (fuel + 1) moves s = some (s, moves)) ∧
    (∀ {σ : Type} (go hu : σ → Bool) (step : σ → σ) (n fuel moves : Nat) (s : σ),
      go s = false → n ≤ moves →
      autoplayFuel go hu step (some n) (fuel + 1) moves s = some (s, moves)) ∧
    (∀ {σ : Type} (go hu : σ → Bool) (step : σ → σ) (mx : Option Nat) (fuel moves : Nat)
      (s : σ), go s = false → autoplayStop mx moves = false → hu s = true →
      autoplayFuel go hu step mx (fuel + 1) moves s = some (s, moves)) ∧
    (∀ {σ : Type} (go hu : σ → Bool) (step : σ → σ) (n : Nat) (s : σ),
      (autoplayFuel go hu step (some n) (n + 1) 0 s).isSome = true) := by
  refine ⟨rfl, rfl, ?_, ?_, ?_, ?_⟩
  · intro σ go hu step mx fuel moves s hgo
    simp [autoplayFuel, hgo]
  · intro σ go hu step n fuel moves s hgo hn
    simp [autoplayFuel, hgo, autoplayStop, hn]
  · intro σ go hu step mx fuel moves s hgo hstop hhu
    simp [autoplayFuel, hgo, hstop, hhu]
  · intro σ go hu step n s
    exact autoplay_some_of_ceiling go hu step n (n + 1) 0 s (Nat.zero_le n) (by omega)

/-- C5 witness: each stop condition and the ceiling bound at concrete inputs. -/
theorem autoplay_ceiling_hard_stop_witness :
    autoplayFuel (fun _ : Unit => true) (fun _ => false) (fun s => s) none 1 0 () =
      some ((), 0) ∧
    autoplayFuel (fun _ : Unit => false) (fun _ => false) (fun s => s) (some 0) 1 5 () =
      some ((), 5) ∧
    autoplayFuel (fun _ : Unit => false) (fun _ => true) (fun s => s) none 1 0 () =
      some ((), 0) ∧
    (autoplayFuel (fun _ : Unit => false) (fun _ => false) (fun s => s) (some 3) 4 0 ()).isSome
      = true := by
  have h := autoplay_ceiling_hard_stop
  exact ⟨h.2.2.1 _ _ _ none 0 0 () rfl,
         h.2.2.2.1 _ _ _ 0 0 5 () rfl (by omega),
         h.2.2.2.2.1 _ _ _ none 0 0 () rfl rfl rfl,
         h.2.2.2.2.2 _ _ _ 3 ()⟩

theorem autoplay_unmoving_agent_none (fuel : Nat) :
    ∀ moves, autoplayApp toy "Ollama" "Ollama" (fun s => s) none fuel moves [] = none := by
  induction fuel with
  | zero => intro moves; rfl
  | succ f ih =>
    intro moves
    unfold autoplayApp at ih ⊢
    simp only [autoplayFuel]
    have hgo : toy.gameOver [] = false := by decide
    have hhu : humanToMove toy "Ollama" "Ollama" [] = false := by decide
    simp only [hgo, hhu, autoplayStop, Bool.false_eq_true, if_false]
    exact ih (moves + 1)

/-- C5 counterexample: a move-triggered autoplay run (ceiling `None`) between
two agent-controlled sides on a non-terminal board, where the agent's turn
never changes the board (e.g. every invocation fails), never stops: the loop
is still running after any number of iterations. -/
theorem autoplay_move_trigger_diverges :
    autoplayNeverStops toy "Ollama" "Ollama" (fun s => s) move_entrypoint_max_moves [] :=
  fun fuel => autoplay_unmoving_agent_none fuel 0

/-- C6: when the event stream raises, the Bridge appends exactly one
assistant entry `Error: <details>` to the transcript it had built, yields
exactly once more than the failure-free run, and the sequence ends there —
no exception escapes (the yield list is a total value). -/
theorem call_agent_error_boundary (msgs : List ChatMessage) (events : List Chunk)
    (e : String) :
    call_agent msgs events (some e) =
      call_agent msgs events none ++ [(processChunks msgs events).1 ++ [errorEntry e]] ∧
    (call_agent msgs events (some e)).length = (call_agent msgs events none).length + 1 ∧
    (errorEntry e).role = "assistant" ∧
    (errorEntry e).content = PyVal.vstr ("Error: " ++ e) := by
  refine ⟨rfl, ?_, rfl, rfl⟩
  simp [call_agent]

/-- C7: replacing the Position with the FEN just read back from it is a
no-op and returns that same FEN, given the trusted rules-engine round-trip
law at the interface boundary (`board.set_fen(board.fen())` restores the
same state). -/
theorem set_fen_get_fen_roundtrip {σ μ : Type} (e : Engine σ μ) (s : σ)
    (hrt : ∀ t, e.setFen t (e.fen t) = Except.ok t) :
    set_fen e s (get_fen e s).2 = (s, e.fen s) := by
  show set_fen e s (e.fen s) = (s, e.fen s)
  simp [set_fen, hrt s]

/-- C7 witness: the toy engine satisfies the round-trip law, and the
`set_fen`/`get_fen` composition is a no-op on it. -/
theorem set_fen_get_fen_roundtrip_witness :
    (∀ t, toy.setFen t (toy.fen t) = Except.ok t) ∧
    set_fen toy [] (get_fen toy []).2 = ([], "toyfen") := by
  have hrt : ∀ t, toy.setFen t (toy.fen t) = Except.ok t := fun t => rfl
  exact ⟨hrt, set_fen_get_fen_roundtrip toy [] hrt⟩

/-- C8 counterexample: content that is the non-empty sequence `[""]` does not
yield its first element `""` — the falsy value falls through to the
placeholder, so the claim's case analysis is wrong as stated. -/
theorem chunk_content_first_element_cex :
    getChunkMessageContent (PyVal.vlist [PyVal.vstr ""]) = PyVal.vstr "Calling tool(s)" ∧
    PyVal.vstr "Calling tool(s)" ≠ PyVal.vstr "" := by
  refine ⟨rfl, ?_⟩
  simp

/-- C8 (amended): extraction first reduces a non-empty sequence to its first
element and an empty sequence to the placeholder; a keyed answer — at top
level or as that first element — reduces further to its labelled `"text"`
value (absent key: `None`); the reduced value is kept when truthy and
otherwise falls back to the placeholder `"Calling tool(s)"`. -/
theorem chunk_content_extraction (c : PyVal) :
    getChunkMessageContent c = specExtractContent c := by
  cases c with
  | vstr s => rfl
  | vnone => rfl
  | vdict es => rfl
  | vlist xs =>
    cases xs with
    | nil => rfl
    | cons x rest => cases x <;> rfl

/-- C9: `convert_move_to_uci` never mutates the Position — it returns the
state unchanged together with either the UCI translation or a descriptive
failure message. -/
theorem convert_move_to_uci_pure {σ μ : Type} (e : Engine σ μ) (s : σ) (alg : String) :
    (convert_move_to_uci e s alg).1 = s ∧
    ((∃ mv, e.parseSan s alg = Except.ok mv ∧
        (convert_move_to_uci e s alg).2 = "UCI format: " ++ e.uciOf mv) ∨
     (∃ err, e.parseSan s alg = Except.error err ∧
        (convert_move_to_uci e s alg).2 =
          "Could not convert '" ++ alg ++ "' to UCI format. Error: " ++ err)) := by
  refine ⟨rfl, ?_⟩
  cases hp : e.parseSan s alg with
  | ok mv => exact Or.inl ⟨mv, rfl, by simp [convert_move_to_uci, hp]⟩
  | error err => exact Or.inr ⟨err, rfl, by simp [convert_move_to_uci, hp]⟩

theorem notYourTurn_false_of_head (lit x : String) (c : Char) (cs : List Char)
    (hl : lit.data = c :: cs) (hne : ('N' == c) = false) :
    strStartsWith (lit ++ x) "Not your turn" = false := by
  unfold strStartsWith
  rw [strData_append, hl]
  have hpat : "Not your turn".data = 'N' :: "ot your turn".data := rfl
  rw [hpat]
  simp [List.isPrefixOf, hne]

/-- C10: the chat entry point's Tool Surface is built with no side
restriction (`create_base_tools(board)` keeps `allowed_side = None`), so its
`make_move` skips the turn check entirely, applies any legal move for
whichever side is to move, and never produces a message starting with the
"Not your turn" rejection (given that the engine's parse-error texts and
success strings do not themselves start with it). -/
theorem chat_make_move_unrestricted :
    app_base_tools_allowed_side = none ∧
    (∀ {σ μ : Type} [DecidableEq μ] (e : Engine σ μ) (s : σ) (m : String),
      make_move e app_base_tools_allowed_side s m = make_move_core e s m) ∧
    (∀ {σ μ : Type} [DecidableEq μ] (e : Engine σ μ) (s : σ) (m : String) (cm : μ),
      e.fromUci m = Except.ok cm → cm ∈ e.legalMoves s →
      (make_move e app_base_tools_allowed_side s m).1 = e.push s cm) ∧
    (∀ {σ μ : Type} [DecidableEq μ] (e : Engine σ μ) (s : σ) (m : String),
      (∀ err, e.fromUci m = Except.error err → strStartsWith err "Not your turn" = false) →
      (∀ cm, cm ∈ e.legalMoves s →
        strStartsWith (e.fen (e.push s cm) ++ " | status=" ++
          statusAfterPush e (e.push s cm)) "Not your turn" = false) →
      strStartsWith (make_move e app_base_tools_allowed_side s m).2 "Not your turn" = false) := by
  refine ⟨rfl, ?_, ?_, ?_⟩
  · intro σ μ inst e s m; rfl
  · intro σ μ inst e s m cm hp hl
    show (make_move_core e s m).1 = e.push s cm
    simp [make_move_core, hp, hl]
  · intro σ μ inst e s m herr hsucc
    show strStartsWith (make_move_core e s m).2 "Not your turn" = false
    cases hp : e.fromUci m with
    | error err =>
      by_cases hc : (strContainsSub (lowerStr err) "expected uci string" ||
          strContainsSub (lowerStr err) "invalid uci") = true
      · simp only [make_move_core, hp, hc, if_true]
        unfold invalidUciMsg
        rw [String.append_assoc]
        exact notYourTurn_false_of_head "Invalid UCI format '"
          (m ++ "'. Use convert_move_to_uci tool if you have algebraic notation, or get_legal_moves to see valid UCI moves.")
          'I' "nvalid UCI format '".data rfl (by decide)
      · simp only [make_move_core, hp, hc, if_false]
        exact herr err hp
    | ok cm =>
      by_cases hl : cm ∈ e.legalMoves s
      · simp only [make_move_core, hp, hl, if_true]
        exact hsucc cm hl
      · simp only [make_move_core, hp, hl, if_false]
        unfold illegalMoveMsg
        rw [String.append_assoc]
        exact notYourTurn_false_of_head "Illegal move '"
          (m ++ ("'. Use UCI format like these legal moves: " ++
            commaJoin (((e.legalMoves s).take 10).map e.uciOf)))
          'I' "llegal move '".data rfl (by decide)

/-- C10 witness: on the toy engine with the chat entry point's unrestricted
surface, `e2e4` is applied for the side to move and no "Not your turn"
message can arise. -/
theorem chat_make_move_unrestricted_witness :
    make_move toy app_base_tools_allowed_side [] "e2e4" = make_move_core toy [] "e2e4" ∧
    (make_move toy app_base_tools_allowed_side [] "e2e4").1 = ["e2e4"] ∧
    strStartsWith (make_move toy app_base_tools_allowed_side [] "e2e4").2 "Not your turn"
      = false := by
  have h := chat_make_move_unrestricted
  refine ⟨h.2.1 toy [] "e2e4", h.2.2.1 toy [] "e2e4" "e2e4" rfl (by decide), ?_⟩
  refine h.2.2.2 toy [] "e2e4" ?_ (by decide)
  intro err herr
  rw [show toy.fromUci "e2e4" = Except.ok "e2e4" from rfl] at herr
  exact absurd herr (by simp)

end ChessLM
